import Mathlib

/-!
Verification of the `expenses` repository: a shallow embedding of the
statement-line parsing engine (`pdf_parser.py` / the `PDFParser` copy in
`database_manager.py`), the statement-period substitution performed by
`ExpenseApp.load_statement` (`app.py`), and the `DatabaseManager` store
(`database_manager.py`, first class).

Text is modelled as `List Char`; monetary amounts as exact integer cents
(the source keeps `float`s of the form `d+.dd`, which the claims treat at
two-decimal precision); SQLite tables as Lean lists of row structures.
-/

namespace Expenses

/-- Whitespace set used by Python `str.strip` and the regex `\s`
(restricted to the ASCII whitespace appearing in statement text). -/
def isSpace (c : Char) : Bool :=
  c = ' ' || c = '\t' || c = '\n' || c = '\r' || c.toNat = 11 || c.toNat = 12

/-- Python `str.strip()`. -/
def pyStrip (l : List Char) : List Char :=
  ((l.dropWhile isSpace).reverse.dropWhile isSpace).reverse

/-- Numeric value of a digit character. -/
def dval (c : Char) : Nat := c.toNat - 48

/-- Calendar model backing Python `datetime.date`. -/
def isLeap (y : Nat) : Bool :=
  y % 4 = 0 && (y % 100 ≠ 0 || y % 400 = 0)

/-- Length of a month, as `datetime.date` validates it. -/
def daysInMonth (y m : Nat) : Nat :=
  if m = 2 then (if isLeap y then 29 else 28)
  else if m = 4 || m = 6 || m = 9 || m = 11 then 30
  else 31

/-- `datetime.date(y, m, d)` succeeds exactly on these triples
(`datetime.MINYEAR = 1`, `datetime.MAXYEAR = 9999`). -/
def validDate (y m d : Nat) : Bool :=
  1 ≤ y && y ≤ 9999 && 1 ≤ m && m ≤ 12 && 1 ≤ d && d ≤ daysInMonth y m

/-- A calendar date as produced by the parser. -/
structure PDate where
  year : Nat
  month : Nat
  day : Nat
deriving DecidableEq, Repr

/-- `Transaction` (transaction.py): the pipeline's per-line output. -/
structure Txn where
  date : PDate
  store_name : List Char
  amount : Int
  installment_number : Option Nat
deriving DecidableEq, Repr

/-! ## DATE_PATTERN: `^(\d{1,2}[∕-]\d{1,2})` (the class is slash-or-dash)

The regex engine is deterministic on this pattern: backtracking the first
`\d{1,2}` from two digits to one places a digit where the separator is required,
so greedy matching without backtracking is exact. -/

/-- Second half of `DATE_PATTERN`: 1–2 digits (greedy) and the remainder. -/
def grabMonthDigits (d : Nat) : List Char → Option (Nat × Nat × List Char)
  | c :: rest =>
    if c.isDigit then
      match rest with
      | c2 :: rest2 =>
        if c2.isDigit then some (d, 10 * dval c + dval c2, rest2)
        else some (d, dval c, rest)
      | [] => some (d, dval c, [])
    else none
  | [] => none

/-- `DATE_PATTERN.match(line)`: on success returns the two numeric groups
(day, month, as `int()` parses them) and the text after the match. -/
def matchDatePattern : List Char → Option (Nat × Nat × List Char)
  | c0 :: c1 :: rest2 =>
    if c0.isDigit then
      if c1.isDigit then
        match rest2 with
        | c2 :: rest3 =>
          if c2 = '/' || c2 = '-' then grabMonthDigits (10 * dval c0 + dval c1) rest3
          else none
        | [] => none
      else if c1 = '/' || c1 = '-' then grabMonthDigits (dval c0) rest2
      else none
    else none
  | _ => none

/-! ## MONTH_PATTERN: `^(\d{1,2})\s+([A-Za-zÁÉÍÓÚáéíóúÜü\.]+)` -/

/-- The character class of the month-name group. -/
def isMonthChar (c : Char) : Bool :=
  c.isAlpha || c = '.' ||
  "ÁÉÍÓÚáéíóúÜü".data.contains c

/-- `MONTH_PATTERN.match(line)`: day value, month-name token, remainder. -/
def matchMonthPattern : List Char → Option (Nat × List Char × List Char)
  | c0 :: r1 =>
    if c0.isDigit then
      let p : Nat × List Char :=
        match r1 with
        | c1 :: t => if c1.isDigit then (10 * dval c0 + dval c1, t) else (dval c0, r1)
        | [] => (dval c0, [])
      match p.2 with
      | s :: t =>
        if isSpace s then
          let r3 := t.dropWhile isSpace
          let tok := r3.takeWhile isMonthChar
          if tok = [] then none else some (p.1, tok, r3.drop tok.length)
        else none
      | [] => none
    else none
  | [] => none

/-- `PDFParser.MONTH_NAMES.get` on `group(2).lower()[:3]` (pdf_parser.py). -/
def monthNames (key : List Char) : Option Nat :=
  if key = "ene".data then some 1
  else if key = "feb".data then some 2
  else if key = "mar".data then some 3
  else if key = "abr".data then some 4
  else if key = "may".data then some 5
  else if key = "jun".data then some 6
  else if key = "jul".data then some 7
  else if key = "ago".data then some 8
  else if key = "sep".data then some 9
  else if key = "oct".data then some 10
  else if key = "nov".data then some 11
  else if key = "dic".data then some 12
  else none

/-! ## AMOUNT_PATTERN: `\d[\d\.]*,\d{2}-?`

Deterministic again: `[\d\.]*` cannot be shortened to expose a `,`
(every character it consumed is a digit or `.`), so the maximal run
followed by the literal checks is the only candidate at each position. -/

/-- Length of an `AMOUNT_PATTERN` match anchored at the head, if any. -/
def tryAmount : List Char → Option Nat
  | c :: rest =>
    if c.isDigit then
      let run := (rest.takeWhile (fun x => x.isDigit || x = '.')).length
      match rest.drop run with
      | ',' :: d1 :: d2 :: tail =>
        if d1.isDigit && d2.isDigit then
          some (if tail.head? = some '-' then run + 5 else run + 4)
        else none
      | _ => none
    else none
  | [] => none

/-- `finditer` scan: non-overlapping matches, leftmost first, resuming at
each match end. Returns `(start, length)` pairs. Fuel bounds the walk. -/
def scanGo : Nat → Nat → List Char → List (Nat × Nat)
  | 0, _, _ => []
  | fuel + 1, i, cs =>
    match cs with
    | [] => []
    | _ :: tail =>
      match tryAmount cs with
      | some len => (i, len) :: scanGo fuel (i + len) (cs.drop len)
      | none => scanGo fuel (i + 1) tail

/-- All `AMOUNT_PATTERN.finditer(rest)` matches, in scan order. -/
def scanAmounts (cs : List Char) : List (Nat × Nat) :=
  scanGo cs.length 0 cs

/-- The source's `for am in finditer: amt_m = am` loop — keep the last. -/
def lastAmount (cs : List Char) : Option (Nat × Nat) :=
  (scanAmounts cs).foldl (fun _ a => some a) none

/-- `float(amt_str.replace('.', '').replace(',', '.'))` in exact cents.
Python `float` rejects a trailing `-` (the only place `-` can occur in an
`AMOUNT_PATTERN` match), which the source catches and turns into a skip:
that failure is `none` here. -/
def centsOfAmtStr (cs : List Char) : Option Int :=
  if cs.contains '-' then none
  else
    let noDots := cs.filter (fun c => c ≠ '.')
    let ip := noDots.takeWhile (fun c => c ≠ ',')
    match noDots.drop ip.length with
    | ',' :: fp =>
      if fp.length = 2 && fp.all Char.isDigit && ip ≠ [] && ip.all Char.isDigit then
        some ((ip.foldl (fun n c => 10 * n + dval c) 0 : Nat) * 100
              + (fp.foldl (fun n c => 10 * n + dval c) 0 : Nat))
      else none
    | _ => none

/-- The sign flag: `'-' in amt_str or (start > 0 and rest[start-1] == '-')`. -/
def negFlag (rest : List Char) (m : Nat × Nat) : Bool :=
  ((rest.drop m.1).take m.2).contains '-' ||
    (decide (0 < m.1) && (rest.get? (m.1 - 1) == some '-'))

/-! ## INSTALL_PATTERN: `C\.?\s*(\d{1,2})/(\d{1,2})`, IGNORECASE, `search` -/

/-- Anchored installment-marker match; returns `int(group(1))`. The same
determinism arguments apply to `\.?`, `\s*` and both `\d{1,2}`. -/
def tryInstall : List Char → Option Nat
  | c :: cs1 =>
    if c = 'C' || c = 'c' then
      let cs2 := match cs1 with
        | '.' :: t => t
        | _ => cs1
      match cs2.dropWhile isSpace with
      | a :: b :: t =>
        if a.isDigit then
          if b.isDigit then
            match t with
            | '/' :: u =>
              if (match u with | x :: _ => x.isDigit | [] => false) then
                some (10 * dval a + dval b)
              else none
            | _ => none
          else if b = '/' then
            if (match t with | x :: _ => x.isDigit | [] => false) then some (dval a)
            else none
          else none
        else none
      | _ => none
    else none
  | [] => none

/-- `INSTALL_PATTERN.search(desc)`: first match position and `group(1)`. -/
def searchInstallGo : List Char → Nat → Option (Nat × Nat)
  | [], _ => none
  | c :: rest, i =>
    match tryInstall (c :: rest) with
    | some n => some (i, n)
    | none => searchInstallGo rest (i + 1)

/-- Search for the installment marker anywhere in the description. -/
def searchInstallMarker (cs : List Char) : Option (Nat × Nat) :=
  searchInstallGo cs 0

/-- `desc.split('*', 1)[1]`: everything after the first `*`. -/
def afterStar (cs : List Char) : List Char :=
  (cs.dropWhile (fun c => c ≠ '*')).drop 1

/-! ## Per-line parsing (`PDFParser.parse_pdf` loop body) -/

/-- Outcome of one loop iteration: line skipped, a transaction appended,
or an uncaught exception escaping `parse_pdf`. -/
inductive LineOutcome where
  | skip : LineOutcome
  | emit : Txn → LineOutcome
  | err : LineOutcome
deriving DecidableEq, Repr

/-- The tail of the loop once a date and the trimmed remainder are fixed:
amount selection, sign, normalization, description sanitization, emission
(pdf_parser.py lines 51–78). -/
def finishLine (origLine : List Char) (date : PDate) (rest : List Char) : LineOutcome :=
  if rest = [] then .skip
  else
    match lastAmount rest with
    | none => .skip
    | some m =>
      let amtStr := (rest.drop m.1).take m.2
      match centsOfAmtStr amtStr with
      | none => .skip
      | some c =>
        let amt : Int := if negFlag rest m then -c else c
        let d0 := pyStrip (rest.take m.1)
        let p : Option Nat × List Char :=
          match searchInstallMarker d0 with
          | some im => (some im.2, pyStrip (d0.take im.1))
          | none => (none, d0)
        let d2 := if p.2.contains '*' then pyStrip (afterStar p.2) else p.2
        .emit { date := date
                store_name := if d2 = [] then origLine else d2
                amount := amt
                installment_number := p.1 }

/-- The month-name fallback branch (pdf_parser.py lines 42–49). The
`datetime.date` call here is **not** inside a `try`, so an invalid
calendar date raises out of `parse_pdf` (`.err`). -/
def monthBranch (refYear : Nat) (origLine line : List Char) : LineOutcome :=
  match matchMonthPattern line with
  | some r =>
    match monthNames ((r.2.1.map Char.toLower).take 3) with
    | some mn =>
      if validDate refYear mn r.1 then
        finishLine origLine ⟨refYear, mn, r.1⟩ (pyStrip r.2.2)
      else .err
    | none => .skip
  | none => .skip

/-- One iteration of the `for line in lines` loop of
`PDFParser.parse_pdf` (pdf_parser.py lines 27–78). `refYear` stands for
`datetime.date.today().year`. The numeric-date branch wraps its
`datetime.date` call in `try/except: pass`, so an invalid date there
falls through to the month-name branch. -/
def parseLine (refYear : Nat) (origLine : List Char) : LineOutcome :=
  if pyStrip origLine = [] then .skip
  else
    match matchDatePattern (pyStrip origLine) with
    | some r =>
      if validDate refYear r.2.1 r.1 then
        finishLine origLine ⟨refYear, r.2.1, r.1⟩ (pyStrip r.2.2)
      else monthBranch refYear origLine (pyStrip origLine)
    | none => monthBranch refYear origLine (pyStrip origLine)

/-- `PDFParser.parse_pdf` over the extracted lines: transactions in line
order; an uncaught per-line exception aborts the whole call (`.error`). -/
def parsePdf (refYear : Nat) (lines : List (List Char)) : Except Unit (List Txn) :=
  lines.foldl
    (fun acc l =>
      acc.bind fun ts =>
        match parseLine refYear l with
        | .err => .error ()
        | .skip => .ok ts
        | .emit t => .ok (ts ++ [t]))
    (.ok [])

/-! ## Caller-side period substitution (`ExpenseApp.load_statement`,
app.py lines 244–250) -/

/-- `datetime.date(year, month, t.date.day)` under `try/except: continue`:
the parsed month/year are overridden by the caller period; an invalid
substituted day drops the transaction. -/
def adjustTx (month year : Nat) (t : Txn) : Option Txn :=
  if validDate year month t.date.day then
    some { t with date := ⟨year, month, t.date.day⟩ }
  else none

/-- End-to-end pipeline for a single line: parse, then substitute the
caller-supplied statement period. -/
def linePipeline (refYear month year : Nat) (line : List Char) : List Txn :=
  match parseLine refYear line with
  | .emit t => (adjustTx month year t).toList
  | _ => []

/-! ## DatabaseManager (database_manager.py, lines 8–203)

The SQLite store is modelled relationally: each table is a list of rows
in insertion order, with the `AUTOINCREMENT` counters carried explicitly.
Operations that the source lets raise (`ValueError`, FK violations, the
`fetchone()[0]` crash when the default category is missing) return
`Except`/`Option` errors; an error performs no mutation, matching the
source where every raise happens before any write is committed. -/

/-- A row of `categories(id, name UNIQUE)`. -/
structure CatRow where
  id : Nat
  name : String
deriving DecidableEq, Repr

/-- A row of `stores(id, name UNIQUE, category_id)`. -/
structure StoreRow where
  id : Nat
  name : String
  catId : Nat
deriving DecidableEq, Repr

/-- A row of `transactions(id, statement_id, date, store_id, amount,
installment_number)`; the amount in exact cents. -/
structure TxnRow where
  id : Nat
  statementId : Nat
  date : String
  storeId : Nat
  amount : Int
  inst : Option Nat
deriving DecidableEq, Repr

/-- The persistent store. -/
structure DBState where
  categories : List CatRow
  stores : List StoreRow
  txRows : List TxnRow
  nextCatId : Nat
  nextStoreId : Nat
  nextTxnId : Nat
deriving DecidableEq, Repr

/-- `get_default_category_id`: `SELECT id FROM categories WHERE name=?`
with the literal `"NO ASIGNADA"`; `none` models the `fetchone()[0]`
crash when the row is absent. -/
def getDefaultCategoryId (st : DBState) : Option Nat :=
  (st.categories.find? (fun c => c.name = "NO ASIGNADA")).map (fun c => c.id)

/-- `add_category`: UNIQUE(name) violation becomes a `ValueError`. -/
def addCategory (st : DBState) (name : String) : Except String DBState :=
  if st.categories.any (fun c => c.name = name) then
    .error "La categoria ya existe."
  else
    .ok { st with
          categories := st.categories ++ [⟨st.nextCatId, name⟩]
          nextCatId := st.nextCatId + 1 }

/-- `delete_category` (lines 93–100): refuses the default category, else
reassigns every store pointing at `cid` to the default and removes the
category row. Deleting an id that is (no longer) present is a silent
no-op, exactly as the two SQL statements are. -/
def deleteCategory (st : DBState) (cid : Nat) : Except String DBState :=
  match getDefaultCategoryId st with
  | none => .error "fetchone none"
  | some d =>
    if cid = d then .error "No se puede eliminar la categoria por defecto."
    else
      .ok { st with
            stores := st.stores.map
              (fun s => if s.catId = cid then { s with catId := d } else s)
            categories := st.categories.filter (fun c => c.id ≠ cid) }

/-- First store row with the given name (`SELECT id FROM stores WHERE
name=?`). -/
def lookupStore (st : DBState) (name : String) : Option Nat :=
  (st.stores.find? (fun s => s.name = name)).map (fun s => s.id)

/-- `get_store_id` (lines 108–117): exact-match lookup; on miss, insert a
new store bound to the current default category and return `lastrowid`.
`none` models the crash when the default category row is missing. -/
def getStoreId (st : DBState) (name : String) : Option (Nat × DBState) :=
  match lookupStore st name with
  | some i => some (i, st)
  | none =>
    match getDefaultCategoryId st with
    | none => none
    | some d =>
      some (st.nextStoreId,
            { st with
              stores := st.stores ++ [⟨st.nextStoreId, name, d⟩]
              nextStoreId := st.nextStoreId + 1 })

/-- `update_store_category` (lines 119–122). `PRAGMA foreign_keys=ON`
makes the UPDATE fail when it would write a dangling `category_id`. -/
def updateStoreCategory (st : DBState) (sid cid : Nat) : Except String DBState :=
  if st.stores.any (fun s => s.id = sid) && !(st.categories.any (fun c => c.id = cid)) then
    .error "FOREIGN KEY constraint failed"
  else
    .ok { st with
          stores := st.stores.map
            (fun s => if s.id = sid then { s with catId := cid } else s) }

/-- The row rewrite performed by the reassignment UPDATE. -/
def reassignStores (st : DBState) (m c : Nat) : List StoreRow :=
  st.stores.map (fun s => if s.id = m then { s with catId := c } else s)

/-- The join of `get_store_category`: `stores s JOIN categories c ON
s.category_id=c.id WHERE s.id=?`, first row. -/
def lookupJoinCategory (st : DBState) (sid : Nat) : Option (Nat × String) :=
  match st.stores.find? (fun s => s.id = sid) with
  | none => none
  | some s => (st.categories.find? (fun c => c.id = s.catId)).map (fun c => (c.id, c.name))

/-- `get_store_category` (lines 124–130): the join result, or the
`(default_id, "NO ASIGNADA")` fallback; `none` is the crash when even
the default category is missing. -/
def getStoreCategory (st : DBState) (sid : Nat) : Option (Nat × String) :=
  match lookupJoinCategory st sid with
  | some r => some r
  | none => (getDefaultCategoryId st).map (fun d => (d, "NO ASIGNADA"))

/-- `add_manual_transaction` / one step of `add_transactions`: resolve
the store (creating it if needed), then insert the transaction row. -/
def addTxnRow (st : DBState) (sid : Nat) (dt : String) (name : String)
    (amt : Int) (inst : Option Nat) : Option DBState :=
  match getStoreId st name with
  | none => none
  | some p =>
    some { p.2 with
           txRows := p.2.txRows ++ [⟨p.2.nextTxnId, sid, dt, p.1, amt, inst⟩]
           nextTxnId := p.2.nextTxnId + 1 }

/-! ## Aggregation engine (`get_category_sums`, `get_all_category_sums`,
lines 174–193)

Both queries join `transactions → stores → categories`, group by `c.id`,
sum `t.amount` per group and order by the sum, descending; they differ
only in the `WHERE t.statement_id=?` filter, carried here as the row
predicate `p`. Ties are returned in a deterministic order, modelled as
ascending category id. -/

/-- Category attributed to a store id through the join (first matching
store row). -/
def storeCatId (st : DBState) (sid : Nat) : Option Nat :=
  (st.stores.find? (fun s => s.id = sid)).map (fun s => s.catId)

/-- `SUM(t.amount)` over the joined rows of one `GROUP BY c.id` group. -/
def catTotal (st : DBState) (p : TxnRow → Bool) (cid : Nat) : Int :=
  ((st.txRows.filter
      (fun t => p t && decide (storeCatId st t.storeId = some cid))).map
    (fun t => t.amount)).sum

/-- Whether the group for category `cid` is non-empty (the category has
at least one joined transaction in scope). -/
def catHasTxn (st : DBState) (p : TxnRow → Bool) (cid : Nat) : Bool :=
  st.txRows.any (fun t => p t && decide (storeCatId st t.storeId = some cid))

/-- `ORDER BY SUM(t.amount) DESC` with the deterministic tie-break:
strictly larger total first, equal totals by ascending category id.
Rows are `(category id, category name, total)`. -/
def sumOrder (a b : Nat × String × Int) : Prop :=
  b.2.2 < a.2.2 ∨ (a.2.2 = b.2.2 ∧ a.1 ≤ b.1)

instance : DecidableRel sumOrder := fun a b => by
  unfold sumOrder; infer_instance

instance : IsTotal (Nat × String × Int) sumOrder where
  total a b := by
    unfold sumOrder
    rcases lt_trichotomy a.2.2 b.2.2 with h | h | h
    · exact Or.inr (Or.inl h)
    · rcases Nat.le_total a.1 b.1 with h2 | h2
      · exact Or.inl (Or.inr ⟨h, h2⟩)
      · exact Or.inr (Or.inr ⟨h.symm, h2⟩)
    · exact Or.inl (Or.inl h)

instance : IsTrans (Nat × String × Int) sumOrder where
  trans a b c hab hbc := by
    unfold sumOrder at *
    rcases hab with h1 | ⟨h1, h1'⟩ <;> rcases hbc with h2 | ⟨h2, h2'⟩
    · exact Or.inl (h2.trans h1)
    · exact Or.inl (h2 ▸ h1)
    · exact Or.inl (h1 ▸ h2)
    · exact Or.inr ⟨h1.trans h2, h1'.trans h2'⟩

/-- The grouped, summed, ordered result with the grouping key kept. -/
def catSumRowsIds (st : DBState) (p : TxnRow → Bool) : List (Nat × String × Int) :=
  List.insertionSort sumOrder
    ((st.categories.filter (fun c => catHasTxn st p c.id)).map
      (fun c => (c.id, c.name, catTotal st p c.id)))

/-- `WHERE t.statement_id=?`. -/
def stmtFilter (sid : Nat) : TxnRow → Bool := fun t => decide (t.statementId = sid)

/-- The absent `WHERE` clause of `get_all_category_sums`. -/
def allFilter : TxnRow → Bool := fun _ => true

/-- `get_category_sums(sid)` (lines 174–183): `(c.name, SUM(t.amount))`
pairs for one statement. -/
def getCategorySums (st : DBState) (sid : Nat) : List (String × Int) :=
  (catSumRowsIds st (stmtFilter sid)).map (fun r => (r.2.1, r.2.2))

/-- `get_all_category_sums()` (lines 185–193): the same without the
statement filter. -/
def getAllCategorySums (st : DBState) : List (String × Int) :=
  (catSumRowsIds st allFilter).map (fun r => (r.2.1, r.2.2))

/-- The per-merchant slice of a statement's transactions:
`SUM(t.amount)` over the rows of statement `sid` whose store is `m`. -/
def merchantSum (st : DBState) (sid m : Nat) : Int :=
  ((st.txRows.filter
      (fun t => stmtFilter sid t && decide (t.storeId = m))).map
    (fun t => t.amount)).sum

/-- The category-`cid` total of statement `sid` with merchant `m`'s rows
excluded. -/
def catTotalExcl (st : DBState) (sid m cid : Nat) : Int :=
  ((st.txRows.filter
      (fun t => stmtFilter sid t && decide (t.storeId ≠ m)
                && decide (storeCatId st t.storeId = some cid))).map
    (fun t => t.amount)).sum

/-! ## The operation language over the store

Used to state merchant-identity stability across arbitrary subsequent
activity: every mutation the manager exposes on categories, stores and
transactions. A failed call leaves the state unchanged (the source
raises before committing any write). -/

/-- One call into the `DatabaseManager` mutation surface. -/
inductive DBOp where
  | addCat (name : String) : DBOp
  | delCat (cid : Nat) : DBOp
  | setStoreCat (sid cid : Nat) : DBOp
  | resolve (name : String) : DBOp
  | addTxn (sid : Nat) (dt : String) (name : String) (amt : Int) (inst : Option Nat) : DBOp

/-- Apply one operation; failures leave the store untouched. -/
def applyOp (st : DBState) : DBOp → DBState
  | .addCat n =>
    match addCategory st n with
    | .ok s => s
    | .error _ => st
  | .delCat c =>
    match deleteCategory st c with
    | .ok s => s
    | .error _ => st
  | .setStoreCat s c =>
    match updateStoreCategory st s c with
    | .ok s' => s'
    | .error _ => st
  | .resolve n =>
    match getStoreId st n with
    | some p => p.2
    | none => st
  | .addTxn sid dt n a i =>
    match addTxnRow st sid dt n a i with
    | some s => s
    | none => st

/-- Apply a sequence of operations, oldest first. -/
def applyOps (st : DBState) (ops : List DBOp) : DBState :=
  ops.foldl applyOp st

/-! ## Concrete sample stores (used to instantiate the general theorems) -/

/-- A fresh store right after `_ensure_default_category`. -/
def dbFresh : DBState :=
  ⟨[⟨1, "NO ASIGNADA"⟩], [], [], 2, 1, 1⟩

/-- Default category plus one user category with two merchants on it. -/
def dbTwoCats : DBState :=
  ⟨[⟨1, "NO ASIGNADA"⟩, ⟨2, "Comida"⟩],
   [⟨1, "PANADERIA", 2⟩, ⟨2, "VERDULERIA", 2⟩], [], 3, 3, 1⟩

/-- A store with one known merchant bound to the default category. -/
def dbOneStore : DBState :=
  ⟨[⟨1, "NO ASIGNADA"⟩], [⟨5, "CAFE", 1⟩], [], 2, 6, 1⟩

/-- Two categories, one merchant, one transaction on statement 10. -/
def dbReassign : DBState :=
  ⟨[⟨1, "NO ASIGNADA"⟩, ⟨2, "Comida"⟩],
   [⟨1, "CAFE", 1⟩],
   [⟨1, 10, "2024-03-05", 1, 500, none⟩], 3, 2, 2⟩

/-- Two categories with transactions in both, one refund (negative). -/
def dbSums : DBState :=
  ⟨[⟨1, "NO ASIGNADA"⟩, ⟨2, "Comida"⟩],
   [⟨1, "CAFE", 2⟩, ⟨2, "TIENDA", 1⟩],
   [⟨1, 10, "2024-03-05", 1, 500, none⟩,
    ⟨2, 10, "2024-03-06", 1, -200, none⟩,
    ⟨3, 10, "2024-03-07", 2, 300, none⟩,
    ⟨4, 11, "2024-04-01", 2, 900, none⟩], 3, 3, 5⟩

/-- Operations thrown at a store to exercise merchant-identity
stability. -/
def opsSample : List DBOp :=
  [.addCat "Viajes", .resolve "OTRO", .addTxn 10 "2024-03-05" "CAFE" 250 none,
   .setStoreCat 5 1, .delCat 2, .resolve "CAFE"]

/-! # Theorems -/

/-- C1: the claim says that a line whose date form is recognized but
whose calendar date is invalid (day 30 with month February) is skipped
and `parse_pdf` returns normally. On the month-name branch the source
calls `datetime.date` outside any `try`, so the spec's own example line
`"30 Feb market 1.000,00-"` raises an uncaught `ValueError` and aborts
`parse_pdf` — the numeric branch catches it, the month-name branch does
not. This theorem evaluates the code at the failing input. -/
theorem parse_pdf_raises_on_invalid_monthname_date :
    parseLine 2025 "30 Feb market 1.000,00-".data = .err ∧
    parsePdf 2025 ["30 Feb market 1.000,00-".data] = .error () := by
  constructor <;> rfl

/-- C9: the claim says a matched amount substring containing `-` yields
the negated normalized value. In the source, `clean` keeps the trailing
`-` (`replace` only touches `.` and `,`), so `float(clean)` raises
`ValueError`, the `except` clause fires and the line is skipped: no
transaction is emitted at all. Here the last (only) amount match of the
remainder `"market 1.000,00-"` is `"1.000,00-"` (start 7, length 9), it
contains `-`, and the line is skipped. -/
theorem amount_trailing_minus_line_skipped :
    lastAmount "market 1.000,00-".data = some (7, 9) ∧
    (("market 1.000,00-".data.drop 7).take 9).contains '-' = true ∧
    centsOfAmtStr (("market 1.000,00-".data.drop 7).take 9) = none ∧
    parseLine 2025 "05/03 market 1.000,00-".data = .skip := by
  refine ⟨rfl, rfl, rfl, rfl⟩

/-- C10: `get_store_category` on a store id whose join produces no row
(in particular, an id with no store row at all) falls back to the default
category id paired with the literal name `"NO ASIGNADA"` instead of
failing or returning nothing. -/
theorem store_category_fallback_default (st : DBState) (sid d : Nat)
    (hdef : getDefaultCategoryId st = some d)
    (hmiss : st.stores.find? (fun s => s.id = sid) = none ∨
             lookupJoinCategory st sid = none) :
    getStoreCategory st sid = some (d, "NO ASIGNADA") := by
  have hj : lookupJoinCategory st sid = none := by
    rcases hmiss with h | h
    · unfold lookupJoinCategory
      rw [h]
    · exact h
  unfold getStoreCategory
  rw [hj, hdef]
  rfl

/-- Witness for C10 at a concrete store and an unknown store id. -/
theorem store_category_fallback_default_witness :
    getStoreCategory dbFresh 5 = some (1, "NO ASIGNADA") :=
  store_category_fallback_default dbFresh 5 1 rfl (Or.inl rfl)

/-- C5: `delete_category` applied to the default category's id always
fails with the validation error, before any mutation, regardless of the
rest of the store's contents — so the category table (and the default
category in particular) is untouched. -/
theorem delete_default_category_fails (st : DBState) (d : Nat)
    (hdef : getDefaultCategoryId st = some d) :
    deleteCategory st d = .error "No se puede eliminar la categoria por defecto." := by
  unfold deleteCategory
  rw [hdef]
  simp

/-- Witness for C5 on a store whose default category has merchants
assigned. -/
theorem delete_default_category_fails_witness :
    deleteCategory dbOneStore 1
      = .error "No se puede eliminar la categoria por defecto." :=
  delete_default_category_fails dbOneStore 1 rfl

/-- C2 counterexample: `"31/01 SHOP 1,00"` begins with the valid numeric
short-date 31/01 and carries a well-formed trailing amount, yet with the
caller-supplied target period (month 4, year 2024) the pipeline emits
zero transactions — the substituted date April 31 is invalid and the
transaction is dropped — while the claim demands exactly one. -/
theorem pipeline_drops_invalid_target_day :
    parseLine 2025 "31/01 SHOP 1,00".data
      = .emit ⟨⟨2025, 1, 31⟩, "SHOP".data, 100, none⟩ ∧
    linePipeline 2025 4 2024 "31/01 SHOP 1,00".data = [] := by
  constructor <;> rfl

/-- C4 counterexample: deleting category 2 of `dbTwoCats` twice. The
claim says the second call fails; it succeeds as a silent no-op (the
UPDATE matches no store, the DELETE removes no row, no error is
raised). -/
theorem delete_category_second_call_no_error :
    (deleteCategory dbTwoCats 2).bind (fun s1 => deleteCategory s1 2)
      = .ok ⟨[⟨1, "NO ASIGNADA"⟩],
             [⟨1, "PANADERIA", 1⟩, ⟨2, "VERDULERIA", 1⟩], [], 3, 3, 1⟩ := by
  rfl

/-- A `find?` hit that survives a `filter` is still the first hit. -/
theorem find?_filter_keep {α : Type} (p q : α → Bool) :
    ∀ (l : List α) (a : α), l.find? p = some a → q a = true →
      (l.filter q).find? p = some a := by
  intro l
  induction l with
  | nil => intro a h _; simp at h
  | cons b t ih =>
    intro a h hq
    cases hb : p b with
    | true =>
      rw [List.find?_cons_of_pos _ hb] at h
      cases h
      rw [List.filter_cons_of_pos hq, List.find?_cons_of_pos _ hb]
    | false =>
      rw [List.find?_cons_of_neg _ (by simp [hb])] at h
      cases hqb : q b with
      | true =>
        rw [List.filter_cons_of_pos hqb, List.find?_cons_of_neg _ (by simp [hb])]
        exact ih a h hq
      | false =>
        rw [List.filter_cons_of_neg (by simp [hqb])]
        exact ih a h hq

/-- Unfolding of a successful `delete_category`. -/
theorem deleteCategory_ok (st : DBState) (d cid : Nat)
    (hdef : getDefaultCategoryId st = some d) (hne : cid ≠ d) :
    deleteCategory st cid
      = .ok { st with
              stores := st.stores.map
                (fun s => if s.catId = cid then { s with catId := d } else s)
              categories := st.categories.filter (fun c => c.id ≠ cid) } := by
  unfold deleteCategory
  rw [hdef]
  simp [hne]

/-- C4 (amended): deleting a non-default category reassigns every
merchant pointing at it to the default category and removes the category
row — no merchant is left referencing it — but calling `delete_category`
again on the removed id does **not** fail: it succeeds as a no-op that
leaves the store unchanged. -/
theorem delete_category_reassigns_then_second_noop (st : DBState) (d cid : Nat)
    (hdef : getDefaultCategoryId st = some d) (hne : cid ≠ d) :
    ∃ st', deleteCategory st cid = .ok st' ∧
      st'.stores = st.stores.map
        (fun s => if s.catId = cid then { s with catId := d } else s) ∧
      (∀ s ∈ st'.stores, s.catId ≠ cid) ∧
      st'.categories = st.categories.filter (fun c => c.id ≠ cid) ∧
      st'.txRows = st.txRows ∧
      deleteCategory st' cid = .ok st' := by
  have hdne : d ≠ cid := fun h => hne h.symm
  refine ⟨{ st with
            stores := st.stores.map
              (fun s => if s.catId = cid then { s with catId := d } else s)
            categories := st.categories.filter (fun c => c.id ≠ cid) },
          deleteCategory_ok st d cid hdef hne, rfl, ?_, rfl, rfl, ?_⟩
  · intro s hs
    obtain ⟨s0, _, hmap⟩ := List.mem_map.mp hs
    by_cases h0 : s0.catId = cid
    · rw [if_pos h0] at hmap
      rw [← hmap]
      exact hdne
    · rw [if_neg h0] at hmap
      rw [← hmap]
      exact h0
  · have hrow : ∃ cr, st.categories.find? (fun c => c.name = "NO ASIGNADA") = some cr
        ∧ cr.id = d := by
      unfold getDefaultCategoryId at hdef
      cases hfind : st.categories.find? (fun c => c.name = "NO ASIGNADA") with
      | none => rw [hfind] at hdef; simp at hdef
      | some cr => rw [hfind] at hdef; exact ⟨cr, rfl, by simpa using hdef⟩
    obtain ⟨cr, hfind, hcr⟩ := hrow
    have h2 : getDefaultCategoryId
        { st with
          stores := st.stores.map
            (fun s => if s.catId = cid then { s with catId := d } else s)
          categories := st.categories.filter (fun c => c.id ≠ cid) } = some d := by
      unfold getDefaultCategoryId
      have hk := find?_filter_keep (fun c => decide (c.name = "NO ASIGNADA"))
        (fun c => decide (c.id ≠ cid)) st.categories cr hfind (by simp [hcr, hdne])
      simp only [hk]
      simp [hcr]
    rw [deleteCategory_ok _ d cid h2 hne]
    have hc2 : (st.categories.filter (fun c => c.id ≠ cid)).filter
        (fun c => decide (c.id ≠ cid)) = st.categories.filter (fun c => c.id ≠ cid) :=
      List.filter_eq_self.mpr (fun c hc => (List.mem_filter.mp hc).2)
    have hm2 : (st.stores.map
        (fun s => if s.catId = cid then { s with catId := d } else s)).map
          (fun s => if s.catId = cid then { s with catId := d } else s)
        = st.stores.map (fun s => if s.catId = cid then { s with catId := d } else s) := by
      rw [List.map_map]
      apply List.map_congr_left
      intro s _
      by_cases h0 : s.catId = cid
      · simp [Function.comp, h0, hdne]
      · simp [Function.comp, h0]
    simp only [hm2, hc2]

/-- Witness for the amended C4 at a concrete store with two merchants on
the deleted category. -/
theorem delete_category_reassigns_then_second_noop_witness :
    ∃ st', deleteCategory dbTwoCats 2 = .ok st' ∧
      st'.stores = dbTwoCats.stores.map
        (fun s => if s.catId = 2 then { s with catId := 1 } else s) ∧
      (∀ s ∈ st'.stores, s.catId ≠ 2) ∧
      st'.categories = dbTwoCats.categories.filter (fun c => c.id ≠ 2) ∧
      st'.txRows = dbTwoCats.txRows ∧
      deleteCategory st' 2 = .ok st' :=
  delete_category_reassigns_then_second_noop dbTwoCats 1 2 rfl (by decide)

/-- C2 (amended): a line beginning with a numeric short-date `DD/MM`
that forms a valid calendar date in the parser's reference year, whose
remainder carries an amount match that normalizes successfully, and
whose day `DD` is a valid day of the caller-supplied target
`(month, year)`, yields exactly one transaction, dated with day `DD` and
the caller's month and year — whatever `MM` the line printed. (Without
the two validity conditions the line is dropped, yielding zero
transactions; see the counterexample.) -/
theorem pipeline_short_date_target_period
    (refYear tm ty : Nat) (line : List Char) (d mn : Nat) (r : List Char)
    (m : Nat × Nat) (cts : Int)
    (h1 : matchDatePattern (pyStrip line) = some (d, mn, r))
    (h2 : validDate refYear mn d = true)
    (h3 : lastAmount (pyStrip r) = some m)
    (h4 : centsOfAmtStr (((pyStrip r).drop m.1).take m.2) = some cts)
    (h5 : validDate ty tm d = true) :
    ∃ t : Txn, linePipeline refYear tm ty line = [t] ∧ t.date = ⟨ty, tm, d⟩ := by
  have hne : pyStrip line ≠ [] := by
    intro h
    rw [h] at h1
    simp [matchDatePattern] at h1
  have hrne : pyStrip r ≠ [] := by
    intro h
    rw [h] at h3
    simp [lastAmount, scanAmounts, scanGo] at h3
  have hparse : parseLine refYear line
      = finishLine line ⟨refYear, mn, d⟩ (pyStrip r) := by
    unfold parseLine
    rw [if_neg hne, h1]
    simp only [h2, if_true]
  have hfin : ∃ t : Txn, finishLine line ⟨refYear, mn, d⟩ (pyStrip r) = .emit t
      ∧ t.date = ⟨refYear, mn, d⟩ := by
    unfold finishLine
    rw [if_neg hrne, h3]
    dsimp only
    rw [h4]
    exact ⟨_, rfl, rfl⟩
  obtain ⟨t0, hemit, hdate⟩ := hfin
  refine ⟨{ t0 with date := ⟨ty, tm, d⟩ }, ?_, rfl⟩
  unfold linePipeline
  rw [hparse, hemit]
  unfold adjustTx
  dsimp only
  rw [hdate]
  simp only [h5, if_true]
  rfl

/-- Witness for the amended C2: the spec's own style of line with target
period March 2024 and reference year 2025. -/
theorem pipeline_short_date_target_period_witness :
    ∃ t : Txn, linePipeline 2025 3 2024 "05/03 MARKET 9.583,29".data = [t]
      ∧ t.date = ⟨2024, 3, 5⟩ :=
  pipeline_short_date_target_period 2025 3 2024 "05/03 MARKET 9.583,29".data
    5 3 " MARKET 9.583,29".data (7, 8) 958329
    (by decide) (by decide) (by decide) (by decide) (by decide)

/-- The keep-last fold of the source's `for am in finditer` loop returns
the final element of the match list. -/
theorem keepLast_foldl {α : Type} : ∀ (l : List α) (init : Option α), l ≠ [] →
    l.foldl (fun _ a => some a) init = l.getLast? := by
  intro l
  induction l with
  | nil => intro init h; exact absurd rfl h
  | cons a t ih =>
    intro init _
    cases t with
    | nil => rfl
    | cons b u =>
      have h1 := ih (some a) (by simp)
      simp only [List.foldl] at h1 ⊢
      rw [h1, List.getLast?_cons_cons]

/-- Every `AMOUNT_PATTERN` match is non-empty. -/
theorem tryAmount_pos : ∀ (cs : List Char) (len : Nat),
    tryAmount cs = some len → 1 ≤ len := by
  intro cs len h
  cases cs with
  | nil => simp [tryAmount] at h
  | cons c rest =>
    unfold tryAmount at h
    dsimp only at h
    repeat split at h
    all_goals cases h
    all_goals omega

/-- Matches produced by the scan start at or after the scan position. -/
theorem scanGo_start_le : ∀ (fuel i : Nat) (cs : List Char) (q : Nat × Nat),
    q ∈ scanGo fuel i cs → i ≤ q.1 := by
  intro fuel
  induction fuel with
  | zero => intro i cs q h; simp [scanGo] at h
  | succ n ih =>
    intro i cs q h
    unfold scanGo at h
    cases cs with
    | nil => simp at h
    | cons c tail =>
      cases htry : tryAmount (c :: tail) with
      | some len =>
        rw [htry] at h
        rcases List.mem_cons.mp h with h | h
        · rw [h]
        · exact le_trans (Nat.le_add_right i len) (ih (i + len) _ q h)
      | none =>
        rw [htry] at h
        exact le_trans (Nat.le_succ i) (ih (i + 1) tail q h)

/-- The scan's matches have strictly increasing start positions: later
matches in the list occur later in the string. -/
theorem scanGo_pairwise : ∀ (fuel i : Nat) (cs : List Char),
    (scanGo fuel i cs).Pairwise (fun a b => a.1 < b.1) := by
  intro fuel
  induction fuel with
  | zero => intro i cs; simp [scanGo]
  | succ n ih =>
    intro i cs
    unfold scanGo
    cases cs with
    | nil => simp
    | cons c tail =>
      cases htry : tryAmount (c :: tail) with
      | some len =>
        dsimp only
        refine List.Pairwise.cons ?_ (ih (i + len) _)
        intro b hb
        have h1 := scanGo_start_le n (i + len) _ b hb
        have h2 := tryAmount_pos _ _ htry
        omega
      | none =>
        dsimp only
        exact ih (i + 1) tail

/-- C3: when the remainder contains two or more amount-pattern matches,
the match the emitted transaction's amount is computed from is the last
one of the scan, and every other match starts strictly earlier in the
string — earlier amount-shaped substrings are never used as the
amount. -/
theorem amount_last_match_chosen
    (origLine : List Char) (date : PDate) (rest : List Char) (t : Txn)
    (h2 : 2 ≤ (scanAmounts rest).length)
    (hemit : finishLine origLine date rest = .emit t) :
    ∃ last, (scanAmounts rest).getLast? = some last ∧
      lastAmount rest = some last ∧
      (∀ p ∈ scanAmounts rest, p ≠ last → p.1 < last.1) ∧
      ∃ cts, centsOfAmtStr ((rest.drop last.1).take last.2) = some cts ∧
        t.amount = (if negFlag rest last = true then -cts else cts) := by
  have hnil : scanAmounts rest ≠ [] := by
    intro h
    rw [h] at h2
    simp at h2
  have hlast : lastAmount rest = (scanAmounts rest).getLast? :=
    keepLast_foldl _ none hnil
  have hsome : (scanAmounts rest).getLast? = some ((scanAmounts rest).getLast hnil) :=
    List.getLast?_eq_getLast _ hnil
  refine ⟨(scanAmounts rest).getLast hnil, hsome, hlast.trans hsome, ?_, ?_⟩
  · intro p hp hne
    have hpw : (scanAmounts rest).Pairwise (fun a b => a.1 < b.1) :=
      scanGo_pairwise rest.length 0 rest
    have hdecomp := List.dropLast_append_getLast hnil
    rw [← hdecomp] at hp hpw
    rcases List.mem_append.mp hp with h | h
    · exact ((List.pairwise_append.mp hpw).2.2 p h _ (by simp))
    · exact absurd (by simpa using h) hne
  · unfold finishLine at hemit
    have hrne : rest ≠ [] := by
      intro h
      apply hnil
      rw [h]
      rfl
    rw [if_neg hrne, hlast.trans hsome] at hemit
    dsimp only at hemit
    cases hc : centsOfAmtStr ((rest.drop ((scanAmounts rest).getLast hnil).1).take
        ((scanAmounts rest).getLast hnil).2) with
    | none =>
      rw [hc] at hemit
      simp at hemit
    | some c =>
      rw [hc] at hemit
      dsimp only at hemit
      cases hemit
      exact ⟨c, rfl, rfl⟩

/-- Witness for C3: a remainder with two amount matches; the transaction
takes its amount (2,22 → 222 cents, positive) from the later one. -/
theorem amount_last_match_chosen_witness :
    ∃ last, (scanAmounts "A 1,11 B 2,22".data).getLast? = some last ∧
      lastAmount "A 1,11 B 2,22".data = some last ∧
      (∀ p ∈ scanAmounts "A 1,11 B 2,22".data, p ≠ last → p.1 < last.1) ∧
      ∃ cts, centsOfAmtStr (("A 1,11 B 2,22".data.drop last.1).take last.2) = some cts ∧
        (⟨⟨2025, 1, 2⟩, "A 1,11 B".data, 222, none⟩ : Txn).amount
          = (if negFlag "A 1,11 B 2,22".data last = true then -cts else cts) :=
  amount_last_match_chosen "X".data ⟨2025, 1, 2⟩ "A 1,11 B 2,22".data
    ⟨⟨2025, 1, 2⟩, "A 1,11 B".data, 222, none⟩ (by decide) (by decide)

/-- A first `find?` hit by name survives any row map that preserves
names and ids. -/
theorem find?_map_field (f : StoreRow → StoreRow)
    (hname : ∀ s, (f s).name = s.name) (hid : ∀ s, (f s).id = s.id)
    (l : List StoreRow) (name : String) (i : Nat)
    (h : (l.find? (fun s => s.name = name)).map (fun s => s.id) = some i) :
    ((l.map f).find? (fun s => s.name = name)).map (fun s => s.id) = some i := by
  cases hf : l.find? (fun s => decide (s.name = name)) with
  | none => rw [hf] at h; simp at h
  | some a =>
    rw [hf] at h
    simp only [Option.map_some'] at h
    rw [List.find?_map]
    have hpf : ((fun s : StoreRow => decide (s.name = name)) ∘ f)
        = (fun s : StoreRow => decide (s.name = name)) :=
      funext fun s => by simp [Function.comp, hname]
    rw [hpf, hf]
    simpa [hid] using h

/-- Unfolding lemmas for `applyOp`, one per operation. -/
theorem applyOp_addCat (st : DBState) (n : String) :
    applyOp st (.addCat n)
      = (match addCategory st n with | .ok s => s | .error _ => st) := rfl

/-- `applyOp` on a category deletion. -/
theorem applyOp_delCat (st : DBState) (c : Nat) :
    applyOp st (.delCat c)
      = (match deleteCategory st c with | .ok s => s | .error _ => st) := rfl

/-- `applyOp` on a merchant reassignment. -/
theorem applyOp_setStoreCat (st : DBState) (sid cid : Nat) :
    applyOp st (.setStoreCat sid cid)
      = (match updateStoreCategory st sid cid with | .ok s => s | .error _ => st) := rfl

/-- `applyOp` on a merchant resolution. -/
theorem applyOp_resolve (st : DBState) (n : String) :
    applyOp st (.resolve n)
      = (match getStoreId st n with | some p => p.2 | none => st) := rfl

/-- `applyOp` on a transaction insert. -/
theorem applyOp_addTxn (st : DBState) (sid : Nat) (dt n : String) (a : Int) (i : Option Nat) :
    applyOp st (.addTxn sid dt n a i)
      = (match addTxnRow st sid dt n a i with | some s => s | none => st) := rfl

/-- Every operation leaves the store table unchanged, rewrites rows
preserving name and id, or appends a single new row. -/
theorem applyOp_stores (st : DBState) (op : DBOp) :
    (applyOp st op).stores = st.stores ∨
    (∃ f, (∀ s : StoreRow, (f s).name = s.name ∧ (f s).id = s.id) ∧
      (applyOp st op).stores = st.stores.map f) ∨
    (∃ x : StoreRow, (applyOp st op).stores = st.stores ++ [x]) := by
  cases op with
  | addCat n =>
    left
    rw [applyOp_addCat]
    cases hadd : addCategory st n with
    | error e => rfl
    | ok s =>
      unfold addCategory at hadd
      split at hadd
      · cases hadd
      · cases hadd
        rfl
  | delCat c =>
    rw [applyOp_delCat]
    cases hdel : deleteCategory st c with
    | error e => left; rfl
    | ok s =>
      unfold deleteCategory at hdel
      cases hd : getDefaultCategoryId st with
      | none => rw [hd] at hdel; cases hdel
      | some d =>
        rw [hd] at hdel
        dsimp only at hdel
        by_cases hc : c = d
        · rw [if_pos hc] at hdel; cases hdel
        · rw [if_neg hc] at hdel
          cases hdel
          right; left
          exact ⟨fun s => if s.catId = c then { s with catId := d } else s,
                 fun s => by by_cases h0 : s.catId = c <;> simp [h0],
                 rfl⟩
  | setStoreCat sid cid =>
    rw [applyOp_setStoreCat]
    cases hup : updateStoreCategory st sid cid with
    | error e => left; rfl
    | ok s =>
      unfold updateStoreCategory at hup
      split at hup
      · cases hup
      · cases hup
        right; left
        exact ⟨fun s => if s.id = sid then { s with catId := cid } else s,
               fun s => by by_cases h0 : s.id = sid <;> simp [h0],
               rfl⟩
  | resolve n =>
    rw [applyOp_resolve]
    cases hr : getStoreId st n with
    | none => left; rfl
    | some p =>
      unfold getStoreId at hr
      cases hl : lookupStore st n with
      | some j =>
        rw [hl] at hr
        dsimp only at hr
        cases hr
        left; rfl
      | none =>
        rw [hl] at hr
        dsimp only at hr
        cases hd : getDefaultCategoryId st with
        | none => rw [hd] at hr; cases hr
        | some d =>
          rw [hd] at hr
          dsimp only at hr
          cases hr
          right; right
          exact ⟨⟨st.nextStoreId, n, d⟩, rfl⟩
  | addTxn sid dt n a inst =>
    rw [applyOp_addTxn]
    cases ha : addTxnRow st sid dt n a inst with
    | none => left; rfl
    | some s =>
      unfold addTxnRow at ha
      cases hr : getStoreId st n with
      | none => rw [hr] at ha; cases ha
      | some p =>
        rw [hr] at ha
        dsimp only at ha
        cases ha
        unfold getStoreId at hr
        cases hl : lookupStore st n with
        | some j =>
          rw [hl] at hr
          dsimp only at hr
          cases hr
          left; rfl
        | none =>
          rw [hl] at hr
          dsimp only at hr
          cases hd : getDefaultCategoryId st with
          | none => rw [hd] at hr; cases hr
          | some d =>
            rw [hd] at hr
            dsimp only at hr
            cases hr
            right; right
            exact ⟨⟨st.nextStoreId, n, d⟩, rfl⟩

/-- One operation cannot change the id a merchant name resolves to. -/
theorem lookupStore_applyOp (st : DBState) (name : String) (i : Nat) (op : DBOp)
    (h : lookupStore st name = some i) :
    lookupStore (applyOp st op) name = some i := by
  unfold lookupStore at h ⊢
  rcases applyOp_stores st op with hst | ⟨f, hf, hst⟩ | ⟨x, hst⟩
  · rw [hst]; exact h
  · rw [hst]
    exact find?_map_field f (fun s => (hf s).1) (fun s => (hf s).2) _ name i h
  · rw [hst]
    cases hfind : st.stores.find? (fun s => decide (s.name = name)) with
    | none => rw [hfind] at h; simp at h
    | some a =>
      rw [hfind] at h
      rw [List.find?_append, hfind]
      simpa using h

/-- Merchant-name resolution is stable across any operation sequence. -/
theorem lookupStore_applyOps (ops : List DBOp) : ∀ (st : DBState) (name : String) (i : Nat),
    lookupStore st name = some i →
    lookupStore (applyOps st ops) name = some i := by
  induction ops with
  | nil => intro st name i h; exact h
  | cons op rest ih =>
    intro st name i h
    exact ih (applyOp st op) name i (lookupStore_applyOp st name i op h)

/-- C6: merchant resolution is an exact-match lookup by description
string. Resolving a description not yet present creates exactly one new
merchant bound to the current default category id; and once a resolution
has returned an id, every later resolution of the same string — after
any sequence of category edits, reassignments, other resolutions and
transaction inserts, i.e. across any statements — returns that same id
(and, being a pure hit, leaves the store unchanged). -/
theorem resolve_merchant_stable (st : DBState) (name : String) (d : Nat)
    (hdef : getDefaultCategoryId st = some d) :
    (lookupStore st name = none →
      getStoreId st name = some (st.nextStoreId,
        { st with stores := st.stores ++ [⟨st.nextStoreId, name, d⟩]
                  nextStoreId := st.nextStoreId + 1 })) ∧
    (∀ i st1, getStoreId st name = some (i, st1) →
      ∀ ops : List DBOp,
        getStoreId (applyOps st1 ops) name = some (i, applyOps st1 ops)) := by
  constructor
  · intro hmiss
    unfold getStoreId
    rw [hmiss, hdef]
  · intro i st1 hres ops
    have h1 : lookupStore st1 name = some i := by
      unfold getStoreId at hres
      cases hl : lookupStore st name with
      | some j =>
        rw [hl] at hres
        cases hres
        exact hl
      | none =>
        rw [hl, hdef] at hres
        cases hres
        have hf : st.stores.find? (fun s => decide (s.name = name)) = none := by
          unfold lookupStore at hl
          exact Option.map_eq_none'.mp hl
        unfold lookupStore
        rw [List.find?_append, hf]
        simp [List.find?]
    have h2 := lookupStore_applyOps ops st1 name i h1
    unfold getStoreId
    rw [h2]

/-- Witness for C6 at a concrete store, with a sample operation batch
(category add/delete, a different merchant, a reassignment, an import)
between the two resolutions of `"CAFE"`. -/
theorem resolve_merchant_stable_witness :
    getStoreId (applyOps dbOneStore opsSample) "CAFE"
      = some (5, applyOps dbOneStore opsSample) :=
  (resolve_merchant_stable dbOneStore "CAFE" 1 rfl).2 5 dbOneStore rfl opsSample

/-- After the reassignment UPDATE, merchant `m` resolves to category `c`
through the join. -/
theorem storeCatId_map_self (st : DBState) (m c : Nat)
    (hm : st.stores.any (fun s => s.id = m) = true) :
    storeCatId { st with stores := reassignStores st m c } m = some c := by
  unfold storeCatId reassignStores
  have hsome : (st.stores.find? (fun s => decide (s.id = m))).isSome := by
    rw [List.find?_isSome]
    obtain ⟨a, ha, hp⟩ := List.any_eq_true.mp hm
    exact ⟨a, ha, hp⟩
  obtain ⟨a, hf⟩ := Option.isSome_iff_exists.mp hsome
  have haid : a.id = m := by simpa using List.find?_some hf
  rw [List.find?_map]
  have hpf : ((fun s : StoreRow => decide (s.id = m)) ∘
      (fun s => if s.id = m then { s with catId := c } else s))
      = (fun s : StoreRow => decide (s.id = m)) := by
    funext s
    by_cases h0 : s.id = m <;> simp [Function.comp, h0]
  rw [hpf, hf]
  simp [haid]

/-- The reassignment UPDATE leaves every other merchant's category
untouched. -/
theorem storeCatId_map_ne (st : DBState) (m c sid : Nat) (hne : sid ≠ m) :
    storeCatId { st with stores := reassignStores st m c } sid
      = storeCatId st sid := by
  unfold storeCatId reassignStores
  rw [List.find?_map]
  have hpf : ((fun s : StoreRow => decide (s.id = sid)) ∘
      (fun s => if s.id = m then { s with catId := c } else s))
      = (fun s : StoreRow => decide (s.id = sid)) := by
    funext s
    by_cases h0 : s.id = m <;> simp [Function.comp, h0]
  rw [hpf]
  cases hf : st.stores.find? (fun s => decide (s.id = sid)) with
  | none => rfl
  | some a =>
    have haid : a.id = sid := by simpa using List.find?_some hf
    have him : a.id ≠ m := haid ▸ hne
    simp [him]

/-- Row-level decomposition: re-attributing merchant `m` to category `c`
splits `c`'s total into `m`'s own rows plus the other merchants' rows
already attributed to `c`. -/
theorem sum_filter_reattr (rows : List TxnRow) (p : TxnRow → Bool)
    (g g' : Nat → Option Nat) (m c : Nat)
    (hg : ∀ s, g' s = if s = m then some c else g s) :
    ((rows.filter (fun t => p t && decide (g' t.storeId = some c))).map
        (fun t => t.amount)).sum
      = ((rows.filter (fun t => p t && decide (t.storeId = m))).map
          (fun t => t.amount)).sum
        + ((rows.filter (fun t => p t && decide (t.storeId ≠ m)
              && decide (g t.storeId = some c))).map
            (fun t => t.amount)).sum := by
  induction rows with
  | nil => simp
  | cons t ts ih =>
    by_cases hp : p t = true
    · by_cases hsm : t.storeId = m
      · have h1 : g' t.storeId = some c := by rw [hg t.storeId, if_pos hsm]
        have hA : (p t && decide (g' t.storeId = some c)) = true := by
          simp [hp, h1]
        have hB : (p t && decide (t.storeId = m)) = true := by simp [hp, hsm]
        have hC : ¬((p t && decide (t.storeId ≠ m)
            && decide (g t.storeId = some c)) = true) := by simp [hsm]
        simp only [List.filter_cons]
        rw [if_pos hA, if_pos hB, if_neg hC]
        simp only [List.map_cons, List.sum_cons]
        omega
      · have h1 : g' t.storeId = g t.storeId := by rw [hg t.storeId, if_neg hsm]
        by_cases h2 : g t.storeId = some c
        · have hA : (p t && decide (g' t.storeId = some c)) = true := by
            simp [hp, h1, h2]
          have hB : ¬((p t && decide (t.storeId = m)) = true) := by simp [hsm]
          have hC : (p t && decide (t.storeId ≠ m)
              && decide (g t.storeId = some c)) = true := by simp [hp, hsm, h2]
          simp only [List.filter_cons]
          rw [if_pos hA, if_neg hB, if_pos hC]
          simp only [List.map_cons, List.sum_cons]
          omega
        · have hA : ¬((p t && decide (g' t.storeId = some c)) = true) := by
            simp [h1, h2]
          have hB : ¬((p t && decide (t.storeId = m)) = true) := by simp [hsm]
          have hC : ¬((p t && decide (t.storeId ≠ m)
              && decide (g t.storeId = some c)) = true) := by simp [h2]
          simp only [List.filter_cons]
          rw [if_neg hA, if_neg hB, if_neg hC]
          exact ih
    · have hA : ¬((p t && decide (g' t.storeId = some c)) = true) := by simp [hp]
      have hB : ¬((p t && decide (t.storeId = m)) = true) := by simp [hp]
      have hC : ¬((p t && decide (t.storeId ≠ m)
          && decide (g t.storeId = some c)) = true) := by simp [hp]
      simp only [List.filter_cons]
      rw [if_neg hA, if_neg hB, if_neg hC]
      exact ih

/-- Row-level invariance: categories other than the reassignment target
keep exactly the other merchants' rows. -/
theorem sum_filter_reattr_other (rows : List TxnRow) (p : TxnRow → Bool)
    (g g' : Nat → Option Nat) (m c c' : Nat)
    (hg : ∀ s, g' s = if s = m then some c else g s) (hne : c' ≠ c) :
    ((rows.filter (fun t => p t && decide (g' t.storeId = some c'))).map
        (fun t => t.amount)).sum
      = ((rows.filter (fun t => p t && decide (t.storeId ≠ m)
            && decide (g t.storeId = some c'))).map
          (fun t => t.amount)).sum := by
  induction rows with
  | nil => simp
  | cons t ts ih =>
    by_cases hp : p t = true
    · by_cases hsm : t.storeId = m
      · have h1 : g' t.storeId = some c := by rw [hg t.storeId, if_pos hsm]
        have hA : ¬((p t && decide (g' t.storeId = some c')) = true) := by
          simp [h1]
          intro _
          exact fun h => hne h.symm
        have hC : ¬((p t && decide (t.storeId ≠ m)
            && decide (g t.storeId = some c')) = true) := by simp [hsm]
        simp only [List.filter_cons]
        rw [if_neg hA, if_neg hC]
        exact ih
      · have h1 : g' t.storeId = g t.storeId := by rw [hg t.storeId, if_neg hsm]
        by_cases h2 : g t.storeId = some c'
        · have hA : (p t && decide (g' t.storeId = some c')) = true := by
            simp [hp, h1, h2]
          have hC : (p t && decide (t.storeId ≠ m)
              && decide (g t.storeId = some c')) = true := by simp [hp, hsm, h2]
          simp only [List.filter_cons]
          rw [if_pos hA, if_pos hC]
          simp only [List.map_cons, List.sum_cons]
          omega
        · have hA : ¬((p t && decide (g' t.storeId = some c')) = true) := by
            simp [h1, h2]
          have hC : ¬((p t && decide (t.storeId ≠ m)
              && decide (g t.storeId = some c')) = true) := by simp [h2]
          simp only [List.filter_cons]
          rw [if_neg hA, if_neg hC]
          exact ih
    · have hA : ¬((p t && decide (g' t.storeId = some c')) = true) := by simp [hp]
      have hC : ¬((p t && decide (t.storeId ≠ m)
          && decide (g t.storeId = some c')) = true) := by simp [hp]
      simp only [List.filter_cons]
      rw [if_neg hA, if_neg hC]
      exact ih

/-- C7: `update_store_category` then `get_category_sums`. The category
mapping lives on the merchant row, so after reassigning merchant `m` to
category `c` — with the transaction table untouched, no re-import — every
statement's total for `c` now includes all of `m`'s transaction amounts
(and no other category keeps them), and the `(name, total)` pair reported
by `sums_for` for `c` carries that total whenever the statement contains
a transaction of `m`. -/
theorem reassign_retroactive_sums (st : DBState) (m c : Nat) (cr : CatRow)
    (hm : st.stores.any (fun s => s.id = m) = true)
    (hcr : cr ∈ st.categories) (hcid : cr.id = c) :
    ∃ st', updateStoreCategory st m c = .ok st' ∧
      st'.txRows = st.txRows ∧
      st'.categories = st.categories ∧
      (∀ sid, catTotal st' (stmtFilter sid) c
        = merchantSum st sid m + catTotalExcl st sid m c) ∧
      (∀ sid c', c' ≠ c → catTotal st' (stmtFilter sid) c'
        = catTotalExcl st sid m c') ∧
      (∀ sid, (∃ t ∈ st.txRows, t.statementId = sid ∧ t.storeId = m) →
        (cr.name, merchantSum st sid m + catTotalExcl st sid m c)
          ∈ getCategorySums st' sid) := by
  have hcat : st.categories.any (fun cc => cc.id = c) = true :=
    List.any_eq_true.mpr ⟨cr, hcr, by simp [hcid]⟩
  set S : DBState := { st with stores := reassignStores st m c } with hS
  have hg : ∀ s, storeCatId S s = if s = m then some c else storeCatId st s := by
    intro s
    by_cases h0 : s = m
    · rw [if_pos h0, h0]
      exact storeCatId_map_self st m c hm
    · rw [if_neg h0]
      exact storeCatId_map_ne st m c s h0
  have htot : ∀ sid, catTotal S (stmtFilter sid) c
      = merchantSum st sid m + catTotalExcl st sid m c := by
    intro sid
    unfold catTotal merchantSum catTotalExcl
    exact sum_filter_reattr st.txRows (stmtFilter sid) (storeCatId st) _ m c hg
  refine ⟨S, ?_, rfl, rfl, htot, ?_, ?_⟩
  · unfold updateStoreCategory
    rw [hm, hcat]
    rfl
  · intro sid c' hne
    unfold catTotal catTotalExcl
    exact sum_filter_reattr_other st.txRows (stmtFilter sid)
      (storeCatId st) _ m c c' hg hne
  · rintro sid ⟨t, ht, hts, htm⟩
    have hhas : catHasTxn S (stmtFilter sid) c = true := by
      unfold catHasTxn
      refine List.any_eq_true.mpr ⟨t, ht, ?_⟩
      have hSm : storeCatId S t.storeId = some c := by
        rw [htm, hg m, if_pos rfl]
      simp [stmtFilter, hts, hSm]
    have hmem1 : (cr.id, cr.name, catTotal S (stmtFilter sid) cr.id)
        ∈ (S.categories.filter (fun cc => catHasTxn S (stmtFilter sid) cc.id)).map
            (fun cc => (cc.id, cc.name, catTotal S (stmtFilter sid) cc.id)) :=
      List.mem_map_of_mem _ (List.mem_filter.mpr ⟨hcr, by rw [hcid]; exact hhas⟩)
    have hmem2 : (cr.id, cr.name, catTotal S (stmtFilter sid) cr.id)
        ∈ catSumRowsIds S (stmtFilter sid) := by
      unfold catSumRowsIds
      simpa using hmem1
    have hmem3 := List.mem_map_of_mem
      (fun r : Nat × String × Int => (r.2.1, r.2.2)) hmem2
    unfold getCategorySums
    rw [← htot sid, ← hcid]
    exact hmem3

/-- Witness for C7: reassigning the only merchant of `dbReassign` from
the default category to `"Comida"` (id 2). -/
theorem reassign_retroactive_sums_witness :
    ∃ st', updateStoreCategory dbReassign 1 2 = .ok st' ∧
      st'.txRows = dbReassign.txRows ∧
      st'.categories = dbReassign.categories ∧
      (∀ sid, catTotal st' (stmtFilter sid) 2
        = merchantSum dbReassign sid 1 + catTotalExcl dbReassign sid 1 2) ∧
      (∀ sid c', c' ≠ 2 → catTotal st' (stmtFilter sid) c'
        = catTotalExcl dbReassign sid 1 c') ∧
      (∀ sid, (∃ t ∈ dbReassign.txRows, t.statementId = sid ∧ t.storeId = 1) →
        (CatRow.name ⟨2, "Comida"⟩,
          merchantSum dbReassign sid 1 + catTotalExcl dbReassign sid 1 2)
          ∈ getCategorySums st' sid) :=
  reassign_retroactive_sums dbReassign 1 2 ⟨2, "Comida"⟩ (by decide) (by decide) rfl

/-- Shared specification block for one grouped-sums query, parameterized
by the row filter `p` (the `WHERE` clause): coverage in both directions,
one row per in-scope category, and the descending/tie order. -/
theorem catSums_block (st : DBState) (p : TxnRow → Bool)
    (hnodup : (st.categories.map (fun c => c.id)).Nodup) :
    (∀ cr ∈ st.categories, catHasTxn st p cr.id = true →
      (cr.name, catTotal st p cr.id)
        ∈ (catSumRowsIds st p).map (fun r => (r.2.1, r.2.2))) ∧
    (∀ r ∈ catSumRowsIds st p, ∃ cr ∈ st.categories,
      r = (cr.id, cr.name, catTotal st p cr.id) ∧ catHasTxn st p cr.id = true) ∧
    ((catSumRowsIds st p).map (fun r => (r.2.1, r.2.2))).length
      = (st.categories.filter (fun c => catHasTxn st p c.id)).length ∧
    ((catSumRowsIds st p).map (fun r => r.1)).Nodup ∧
    (catSumRowsIds st p).Pairwise sumOrder ∧
    ((catSumRowsIds st p).map (fun r => (r.2.1, r.2.2))).Pairwise
      (fun a b => b.2 ≤ a.2) := by
  refine ⟨?_, ?_, ?_, ?_, ?_, ?_⟩
  · intro cr hcr hhas
    have h1 : (cr.id, cr.name, catTotal st p cr.id)
        ∈ (st.categories.filter (fun c => catHasTxn st p c.id)).map
            (fun c => (c.id, c.name, catTotal st p c.id)) :=
      List.mem_map_of_mem _ (List.mem_filter.mpr ⟨hcr, hhas⟩)
    have h2 : (cr.id, cr.name, catTotal st p cr.id) ∈ catSumRowsIds st p := by
      unfold catSumRowsIds
      simpa using h1
    exact List.mem_map_of_mem _ h2
  · intro r hr
    unfold catSumRowsIds at hr
    rw [List.mem_insertionSort] at hr
    obtain ⟨cc, hcc, heq⟩ := List.mem_map.mp hr
    obtain ⟨hmem, hhas⟩ := List.mem_filter.mp hcc
    exact ⟨cc, hmem, heq.symm, hhas⟩
  · rw [List.length_map]
    unfold catSumRowsIds
    rw [List.length_insertionSort, List.length_map]
  · have hperm : List.Perm
      ((catSumRowsIds st p).map (fun r => r.1))
      (((st.categories.filter (fun c => catHasTxn st p c.id)).map
          (fun c => (c.id, c.name, catTotal st p c.id))).map (fun r => r.1)) :=
      (List.perm_insertionSort sumOrder _).map _
    rw [List.Perm.nodup_iff hperm, List.map_map]
    have : ((fun r : Nat × String × Int => r.1) ∘
        (fun c : CatRow => (c.id, c.name, catTotal st p c.id)))
        = fun c : CatRow => c.id := rfl
    rw [this]
    exact hnodup.sublist ((List.filter_sublist _).map _)
  · exact List.sorted_insertionSort sumOrder _
  · refine List.Pairwise.map _ ?_ (List.sorted_insertionSort sumOrder _)
    intro a b hab
    rcases hab with h | ⟨h, _⟩
    · exact le_of_lt h
    · exact le_of_eq h.symm

/-- C8: both `get_category_sums(sid)` and `get_all_category_sums()`
return one `(category_name, total)` pair per category having at least one
(joined) transaction in scope, where the total is the signed sum of the
matching amounts (negative rows included), ordered by descending total,
ties resolved deterministically by ascending category id. -/
theorem category_sums_spec (st : DBState) (sid : Nat)
    (hnodup : (st.categories.map (fun c => c.id)).Nodup) :
    ((∀ cr ∈ st.categories, catHasTxn st (stmtFilter sid) cr.id = true →
        (cr.name, catTotal st (stmtFilter sid) cr.id) ∈ getCategorySums st sid) ∧
      (∀ r ∈ catSumRowsIds st (stmtFilter sid), ∃ cr ∈ st.categories,
        r = (cr.id, cr.name, catTotal st (stmtFilter sid) cr.id) ∧
        catHasTxn st (stmtFilter sid) cr.id = true) ∧
      (getCategorySums st sid).length
        = (st.categories.filter (fun c => catHasTxn st (stmtFilter sid) c.id)).length ∧
      ((catSumRowsIds st (stmtFilter sid)).map (fun r => r.1)).Nodup ∧
      (catSumRowsIds st (stmtFilter sid)).Pairwise sumOrder ∧
      (getCategorySums st sid).Pairwise (fun a b => b.2 ≤ a.2)) ∧
    ((∀ cr ∈ st.categories, catHasTxn st allFilter cr.id = true →
        (cr.name, catTotal st allFilter cr.id) ∈ getAllCategorySums st) ∧
      (∀ r ∈ catSumRowsIds st allFilter, ∃ cr ∈ st.categories,
        r = (cr.id, cr.name, catTotal st allFilter cr.id) ∧
        catHasTxn st allFilter cr.id = true) ∧
      (getAllCategorySums st).length
        = (st.categories.filter (fun c => catHasTxn st allFilter c.id)).length ∧
      ((catSumRowsIds st allFilter).map (fun r => r.1)).Nodup ∧
      (catSumRowsIds st allFilter).Pairwise sumOrder ∧
      (getAllCategorySums st).Pairwise (fun a b => b.2 ≤ a.2)) :=
  ⟨catSums_block st (stmtFilter sid) hnodup, catSums_block st allFilter hnodup⟩

/-- Witness for C8 on a concrete store with a refund (negative amount)
and an exact tie between the two categories of statement 10. -/
theorem category_sums_spec_witness :
    (∀ cr ∈ dbSums.categories, catHasTxn dbSums (stmtFilter 10) cr.id = true →
      (cr.name, catTotal dbSums (stmtFilter 10) cr.id) ∈ getCategorySums dbSums 10) ∧
    (getCategorySums dbSums 10).Pairwise (fun a b => b.2 ≤ a.2) ∧
    getCategorySums dbSums 10 = [("NO ASIGNADA", 300), ("Comida", 300)] ∧
    getAllCategorySums dbSums = [("NO ASIGNADA", 1200), ("Comida", 300)] := by
  have h := category_sums_spec dbSums 10 (by decide)
  exact ⟨h.1.1, h.1.2.2.2.2.2, by decide, by decide⟩

end Expenses
